import Mathlib

/-!
# ImageStorage: location and time grouping over the `locations` / `files` tables

A shallow embedding of `src/src/imagestorage.cpp`.  The SQLite database behind the
class is an explicit `Store` value (the two tables plus the connection's
last-insert rowid), every member function is a pure function on that value, and
each SQL statement is the list operation it denotes.

Modelling conventions
* A `QString` handed to the database is `Option String`: `none` is the null string,
  which the driver binds as SQL `NULL`; `some ""` is the empty, non-null string,
  bound as empty text.  A nullable column is `Option String` as well.
* A `QString` a function returns is given by its characters (`String`); Qt compares
  a null and an empty string equal, and `toString()` of a `NULL` column reads "".
* Result order of a `SELECT` is table order; `SELECT DISTINCT` is `List.dedup`.
  No property below depends on the order of a result.
* Rowids are unbounded integers (largest in use plus one); the conversion
  `QVariant::toInt` to a 32-bit `int` is `toInt32`.
* SQLite's date functions are modelled for date and date-time text (see
  `parseTimeValue`); locale-dependent Qt renderings use English names.
-/

namespace ImageStorage

/-! ## Qt value types -/

/-- A `QString` as the SQLite driver sees it: `none` is the null string. -/
abbrev QString := Option String

/-- The call `s.isEmpty()`: true for the null and for the empty string. -/
def QString.isEmpty (s : QString) : Bool :=
  match s with
  | none => true
  | some t => decide (t = "")

/-- The part of `QGeoAddress` read by `addImage`. -/
structure QGeoAddress where
  country : QString
  state : QString
  city : QString
deriving DecidableEq, Repr

/-- The time specification of a `QDateTime`; the offset is in seconds. -/
inductive TimeSpec where
  | LocalTime
  | UTC
  | OffsetFromUTC (seconds : Int)
deriving DecidableEq, Repr

/-- A `QDateTime`.  Any field combination that is not a calendar date and a time
of day is an invalid (absent) timestamp. -/
structure QDateTime where
  year : Nat
  month : Nat
  day : Nat
  hour : Nat
  minute : Nat
  second : Nat
  spec : TimeSpec
deriving DecidableEq, Repr

/-- The argument of `addImage`: `ii.path`, `ii.location.address()`, `ii.date`. -/
structure ImageInfo where
  path : QString
  location : QGeoAddress
  date : QDateTime
deriving DecidableEq, Repr

inductive LocationGroup where
  | Country
  | State
  | City
deriving DecidableEq, Repr

inductive TimeGroup where
  | Year
  | Month
  | Week
  | Day
deriving DecidableEq, Repr

/-! ## Calendar arithmetic -/

def isLeapYear (y : Nat) : Bool :=
  (y % 4 == 0 && y % 100 != 0) || y % 400 == 0

def daysInMonth (y m : Nat) : Nat :=
  match m with
  | 1 => 31
  | 2 => if isLeapYear y then 29 else 28
  | 3 => 31
  | 4 => 30
  | 5 => 31
  | 6 => 30
  | 7 => 31
  | 8 => 31
  | 9 => 30
  | 10 => 31
  | 11 => 30
  | 12 => 31
  | _ => 0

/-- Number of days between 1 January and the given date of the same year
(0 for 1 January). -/
def dayOfYear0 (y m d : Nat) : Nat :=
  ((List.range (m - 1)).map (fun i => daysInMonth y (i + 1))).sum + (d - 1)

/-- Day number of a date, counted from 1 March of year 0; linear in the day, so a
day number beyond the end of the month counts on into the next month. -/
def dayNumber (y m d : Nat) : Int :=
  let y1 : Int := if m ≤ 2 then (y : Int) - 1 else y
  let era := y1 / 400
  let yoe := y1 - era * 400
  let mp : Int := if 2 < m then (m : Int) - 3 else (m : Int) + 9
  let doy := (153 * mp + 2) / 5 + ((d : Int) - 1)
  era * 146097 + (yoe * 365 + yoe / 4 - yoe / 100 + doy)

/-- Day of the week, 0 = Monday … 6 = Sunday (proleptic Gregorian calendar;
1 March of year 0 is a Wednesday). -/
def weekdayMon0 (y m d : Nat) : Nat :=
  ((dayNumber y m d + 2) % 7).toNat

/-- The date with a given day number: year, month, day. -/
def civilFromDayNumber (z : Int) : Int × Nat × Nat :=
  let era := z / 146097
  let doe := z - era * 146097
  let yoe := (doe - doe / 1460 + doe / 36524 - doe / 146096) / 365
  let doy := doe - (365 * yoe + yoe / 4 - yoe / 100)
  let mp := (5 * doy + 2) / 153
  let d := doy - (153 * mp + 2) / 5 + 1
  let m := if mp < 10 then mp + 3 else mp - 9
  (yoe + era * 400 + (if m ≤ 2 then 1 else 0), m.toNat, d.toNat)

def digitChar (n : Nat) : Char := Char.ofNat (48 + n % 10)

def pad2 (n : Nat) : List Char := [digitChar (n / 10), digitChar n]

def pad4 (n : Nat) : List Char :=
  [digitChar (n / 1000), digitChar (n / 100), digitChar (n / 10), digitChar n]

/-- Decimal rendering without padding, `QString::number`. -/
def numberChars : Nat → Nat → List Char
  | 0, _ => []
  | fuel + 1, n => if n < 10 then [digitChar n] else numberChars fuel (n / 10) ++ [digitChar n]

def QString.number (n : Int) : String :=
  if n < 0 then String.mk ('-' :: numberChars (n.natAbs + 1) n.natAbs)
  else String.mk (numberChars (n.natAbs + 1) n.natAbs)

/-- The C format `%02d` of a natural number. -/
def fmt02 (n : Nat) : List Char :=
  if n < 10 then ['0', digitChar n] else numberChars (n + 1) n

def QDateTime.isValid (d : QDateTime) : Bool :=
  decide (1 ≤ d.year) && decide (1 ≤ d.month) && decide (d.month ≤ 12) && decide (1 ≤ d.day)
    && decide (d.day ≤ daysInMonth d.year d.month)
    && decide (d.hour < 24) && decide (d.minute < 60) && decide (d.second < 60)

/-- The suffix `toString(Qt::ISODate)` appends for the time specification: nothing
for local time, `Z` for UTC (an offset of 0 is UTC), `+HH:mm` or `-HH:mm` for an
offset from UTC. -/
def offsetSuffix (spec : TimeSpec) : List Char :=
  match spec with
  | .LocalTime => []
  | .UTC => ['Z']
  | .OffsetFromUTC seconds =>
    if seconds = 0 then ['Z']
    else
      (if 0 ≤ seconds then '+' else '-') ::
        (fmt02 (seconds.natAbs / 3600) ++ ':' :: fmt02 (seconds.natAbs / 60 % 60))

/-- The call `date.toString(Qt::ISODate)`: `yyyy-MM-ddTHH:mm:ss` and the suffix of
the time specification for a valid date-time with a year up to 9999, the null
string otherwise. -/
def QDateTime.toString (d : QDateTime) : QString :=
  if d.isValid && decide (d.year ≤ 9999) then
    some (String.mk (pad4 d.year ++ '-' :: pad2 d.month ++ '-' :: pad2 d.day ++
      'T' :: pad2 d.hour ++ ':' :: pad2 d.minute ++ ':' :: pad2 d.second ++ offsetSuffix d.spec))
  else none

/-- An absent capture timestamp, the default-constructed `QDateTime()`. -/
def QDateTime.null : QDateTime := ⟨0, 0, 0, 0, 0, 0, .LocalTime⟩

/-- The call `QDate::longMonthName(month)`, here for an English locale; an empty
string for a number that is no month. -/
def longMonthName (month : Int) : String :=
  match month with
  | 1 => "January"
  | 2 => "February"
  | 3 => "March"
  | 4 => "April"
  | 5 => "May"
  | 6 => "June"
  | 7 => "July"
  | 8 => "August"
  | 9 => "September"
  | 10 => "October"
  | 11 => "November"
  | 12 => "December"
  | _ => ""

def longDayName (wd : Nat) : String :=
  match wd with
  | 0 => "Monday"
  | 1 => "Tuesday"
  | 2 => "Wednesday"
  | 3 => "Thursday"
  | 4 => "Friday"
  | 5 => "Saturday"
  | _ => "Sunday"

/-! ## SQLite date and time functions -/

/-- A calendar date, the value of a `QDate` and of a parsed SQLite time value. -/
structure QDate where
  year : Nat
  month : Nat
  day : Nat
deriving DecidableEq, Repr

def digitVal (c : Char) : Option Nat :=
  if '0' ≤ c ∧ c ≤ '9' then some (c.toNat - 48) else none

def num2 (a b : Char) : Option Nat :=
  match digitVal a, digitVal b with
  | some x, some y => some (10 * x + y)
  | _, _ => none

def num4 (a b c d : Char) : Option Nat :=
  match num2 a b, num2 c d with
  | some x, some y => some (100 * x + y)
  | _, _ => none

/-- White space as SQLite sees it: blank, tab, line feed, vertical tab, form feed,
carriage return. -/
def isSpace (c : Char) : Bool :=
  decide (c.toNat = 32) || (decide (9 ≤ c.toNat) && decide (c.toNat ≤ 13))

def skipSpaces : List Char → List Char
  | [] => []
  | c :: cs => if isSpace c then skipSpaces cs else c :: cs

/-- Skips the blanks and `T`s between the date and the time. -/
def skipSeparators : List Char → List Char
  | [] => []
  | c :: cs => if isSpace c || decide (c = 'T') then skipSeparators cs else c :: cs

def skipDigits : List Char → List Char
  | [] => []
  | c :: cs => if (digitVal c).isSome then skipDigits cs else c :: cs

/-- The time-zone suffix of a time value: nothing, `Z`, or `+HH:MM` / `-HH:MM` with
at most 14 hours; the result is the offset in minutes. -/
def parseTimezone (z : List Char) : Option Int :=
  match skipSpaces z with
  | [] => some 0
  | c :: rest =>
    if c = 'Z' ∨ c = 'z' then
      if skipSpaces rest = [] then some 0 else none
    else if c = '+' ∨ c = '-' then
      match rest with
      | h1 :: h2 :: ':' :: m1 :: m2 :: tail =>
        match num2 h1 h2, num2 m1 m2 with
        | some h, some m =>
          if h ≤ 14 ∧ m ≤ 59 ∧ skipSpaces tail = [] then
            some (if c = '-' then -((m + 60 * h : Nat) : Int) else ((m + 60 * h : Nat) : Int))
          else none
        | _, _ => none
      | _ => none
    else none

/-- The time part `HH:MM[:SS[.FFF]]` and the time-zone suffix of a time value: the
minute of the day and the offset in minutes. -/
def parseHhMmSs : List Char → Option (Nat × Int)
  | h1 :: h2 :: ':' :: m1 :: m2 :: rest =>
    match num2 h1 h2, num2 m1 m2 with
    | some h, some m =>
      if h ≤ 23 ∧ m ≤ 59 then
        match rest with
        | ':' :: s1 :: s2 :: rest2 =>
          match num2 s1 s2 with
          | some s =>
            if s ≤ 59 then
              let rest3 :=
                match rest2 with
                | '.' :: d :: ds => if (digitVal d).isSome then skipDigits ds else rest2
                | _ => rest2
              (parseTimezone rest3).map (fun tz => (60 * h + m, tz))
            else none
          | none => none
        | _ => (parseTimezone rest).map (fun tz => (60 * h + m, tz))
      else none
    | _, _ => none
  | _ => none

/-- The date a parsed time value denotes.  A date within its month and without a
shift by a time zone is its own normal form; otherwise the date is recomputed from
the day number.  A result outside the years 0 to 9999 is no date. -/
def normalizeDate (y m d : Nat) (minuteOfDay : Nat) (tz : Int) : Option QDate :=
  let shift : Int := ((minuteOfDay : Int) - tz) / 1440
  if shift = 0 ∧ d ≤ daysInMonth y m then some ⟨y, m, d⟩
  else
    let r := civilFromDayNumber (dayNumber y m d + shift)
    if 0 ≤ r.1 ∧ r.1 ≤ 9999 then some ⟨r.1.toNat, r.2.1, r.2.2⟩ else none

/-- SQLite's reading of a time value (`none` is SQL `NULL`), for the text forms
`YYYY-MM-DD` and `YYYY-MM-DD HH:MM[:SS[.FFF]]` with `T` or blanks as separator and
an optional suffix `Z`, `+HH:MM` or `-HH:MM`, which shifts the time to UTC.  A day
number up to 31 beyond the end of its month counts into the next month, as in
current SQLite versions.  `NULL` and any other text, in particular the empty string,
are no time value.  Not modelled, and read as invalid: a leading minus sign (years
before 0), hour 24, time-only values, `now`, Julian day numbers, and results before
year 0. -/
def parseTimeValue (v : Option String) : Option QDate :=
  match v with
  | none => none
  | some text =>
    match text.data with
    | y1 :: y2 :: y3 :: y4 :: '-' :: m1 :: m2 :: '-' :: d1 :: d2 :: rest =>
      match num4 y1 y2 y3 y4, num2 m1 m2, num2 d1 d2 with
      | some y, some m, some d =>
        if 1 ≤ m ∧ m ≤ 12 ∧ 1 ≤ d ∧ d ≤ 31 then
          match skipSeparators rest with
          | [] => normalizeDate y m d 0 0
          | c :: cs =>
            match parseHhMmSs (c :: cs) with
            | some (minuteOfDay, tz) => normalizeDate y m d minuteOfDay tz
            | none => none
        else none
      | _, _, _ => none
    | _ => none

/-- The conversion specifiers the queries use. -/
inductive Conv where
  | Y
  | m
  | W
deriving DecidableEq, Repr

/-- SQL `strftime('%Y' | '%m' | '%W', v)`: 4-digit year, 2-digit month, 2-digit
week of the year (00-53, weeks start on Monday); `NULL` for an invalid time value. -/
def strftime (c : Conv) (v : Option String) : Option String :=
  match parseTimeValue v with
  | none => none
  | some dt =>
    match c with
    | .Y => some (String.mk (pad4 dt.year))
    | .m => some (String.mk (pad2 dt.month))
    | .W =>
      some (String.mk (pad2 ((dayOfYear0 dt.year dt.month dt.day + 7
        - weekdayMon0 dt.year dt.month dt.day) / 7)))

/-- SQL `date(v)`: the text `YYYY-MM-DD`, or `NULL`. -/
def date (v : Option String) : Option String :=
  match parseTimeValue v with
  | none => none
  | some dt => some (String.mk (pad4 dt.year ++ '-' :: pad2 dt.month ++ '-' :: pad2 dt.day))

/-! ## QVariant conversions of a result column -/

/-- The call `query.value(i).toString()`: a `NULL` column reads as the empty string. -/
def QVariant.toString (v : Option String) : String := v.getD ""

def digitsToNat : List Char → Nat → Option Nat
  | [], acc => some acc
  | c :: cs, acc =>
    match digitVal c with
    | some d => digitsToNat cs (10 * acc + d)
    | none => none

/-- The call `query.value(i).toInt()` on a text column: its decimal value, 0 for
`NULL` or text that is no number. -/
def QVariant.toInt (v : Option String) : Int :=
  match v with
  | none => 0
  | some s => if s.data = [] then 0 else ((digitsToNat s.data 0).getD 0 : Nat)

/-- The call `query.value(i).toDate()` on the text `date(...)` returns. -/
def QVariant.toDate (v : Option String) : Option QDate :=
  match v with
  | none => none
  | some s => parseTimeValue (some s)

/-- The call `date.toString(Qt::SystemLocaleLongDate)`, here for the locale en_US
(`dddd, MMMM d, yyyy`); the empty string for an invalid date. -/
def QDate.toString (d : Option QDate) : String :=
  match d with
  | none => ""
  | some dt =>
    longDayName (weekdayMon0 dt.year dt.month dt.day) ++ ", " ++ longMonthName dt.month ++ " "
      ++ QString.number dt.day ++ ", " ++ QString.number dt.year

/-- Narrowing of a 64-bit rowid to `int`. -/
def toInt32 (n : Int) : Int := (n + 2 ^ 31) % 2 ^ 32 - 2 ^ 31

/-! ## The database -/

/-- A row of `locations (id INTEGER PRIMARY KEY, country TEXT, state TEXT, city TEXT,
UNIQUE(country, state, city))`; the three text columns may hold `NULL`. -/
structure LocationRow where
  id : Int
  country : Option String
  state : Option String
  city : Option String
deriving DecidableEq, Repr

/-- A row of `files (url TEXT NOT NULL UNIQUE PRIMARY KEY, location INTEGER,
dateTime STRING)` together with its implicit rowid. -/
structure FileRow where
  rowid : Int
  url : String
  location : Option Int
  dateTime : Option String
deriving DecidableEq, Repr

/-- The two tables and the connection's `sqlite3_last_insert_rowid`. -/
structure Store where
  locations : List LocationRow
  files : List FileRow
  lastInsertRowid : Int
deriving DecidableEq, Repr

/-- The freshly created schema on a new connection. -/
def emptyStore : Store := ⟨[], [], 0⟩

/-- The rowid SQLite gives a new row: one more than the largest in use. -/
def nextRowid (ids : List Int) : Int := ids.foldl max 0 + 1

/-- The conflict test of `UNIQUE(country, state, city)`: a stored row with the same
three values, none of them `NULL` (`NULL` values never conflict). -/
def uniqueConflict (rows : List LocationRow) (country state city : QString) : Bool :=
  match country, state, city with
  | some c, some st, some ci =>
    rows.any (fun l => l.country = some c ∧ l.state = some st ∧ l.city = some ci)
  | _, _, _ => false

/-- `INSERT OR IGNORE INTO LOCATIONS(country, state, city) VALUES (?, ?, ?)`.
A conflict with a stored row makes the statement a no-op that leaves the
last-insert rowid as it was. -/
def insertOrIgnoreLocation (s : Store) (country state city : QString) : Store :=
  if uniqueConflict s.locations country state city then s
  else
    let id := nextRowid (s.locations.map (·.id))
    { s with locations := s.locations ++ [⟨id, country, state, city⟩], lastInsertRowid := id }

/-- `INSERT INTO FILES(url, location, dateTime) VALUES (?, ?, ?)` and
`INSERT INTO FILES(url, dateTime) VALUES (?, ?)` (`location = none`).  A null url
violates `NOT NULL`, a stored url violates the primary key: in both cases the
statement fails and changes nothing.  The foreign key on `location` is not enforced
(SQLite's default, which the constructor leaves as it is). -/
def insertFile (s : Store) (url : QString) (location : Option Int) (dateTime : QString) : Store :=
  match url with
  | none => s
  | some u =>
    if s.files.any (fun f => f.url = u) then s
    else
      let rowid := nextRowid (s.files.map (·.rowid))
      { s with files := s.files ++ [⟨rowid, u, location, dateTime⟩], lastInsertRowid := rowid }

/-- The call `query.lastInsertId().toInt()` after a statement that executed. -/
def lastInsertId (s : Store) : Int := toInt32 s.lastInsertRowid

def addImage (s : Store) (ii : ImageInfo) : Store :=
  let addr := ii.location
  if !QString.isEmpty addr.country then
    let s1 := insertOrIgnoreLocation s addr.country addr.state addr.city
    let locId := lastInsertId s1
    insertFile s1 ii.path (some locId) ii.date.toString
  else
    insertFile s ii.path none ii.date.toString

/-- The store after a sequence of `addImage` calls on the empty database. -/
def run (infos : List ImageInfo) : Store := infos.foldl addImage emptyStore

/-! ## QSqlQuery -/

/-- A prepared `SELECT`: the number of `?` placeholders of its text, the rows it
yields for given bound values, the values bound so far, and whether `exec()` has
run it successfully. -/
structure QSqlQuery (α : Type) where
  placeholders : Nat
  select : List QString → List α
  boundValues : List QString
  active : Bool

/-- The call `query.prepare(text)`: nothing is bound and nothing has run. -/
def QSqlQuery.prepare {α : Type} (placeholders : Nat) (select : List QString → List α) :
    QSqlQuery α :=
  ⟨placeholders, select, [], false⟩

def QSqlQuery.addBindValue {α : Type} (q : QSqlQuery α) (v : QString) : QSqlQuery α :=
  { q with boundValues := q.boundValues ++ [v] }

/-- The call `query.exec()`: fails ("Parameter count mismatch") unless one value is
bound per placeholder. -/
def QSqlQuery.exec {α : Type} (q : QSqlQuery α) : Bool × QSqlQuery α :=
  if q.boundValues.length = q.placeholders then (true, { q with active := true })
  else (false, { q with active := false })

/-- The rows the loop `while (query.next())` visits: `next()` is false at once on a
query that is not active. -/
def QSqlQuery.rows {α : Type} (q : QSqlQuery α) : List α :=
  if q.active then q.select q.boundValues else []

/-! ## Location groups -/

def locations (loca : LocationGroup) (s : Store) : List String :=
  match loca with
  | .Country =>
    -- SELECT DISTINCT country from locations
    let query : QSqlQuery (Option String) :=
      QSqlQuery.prepare 0 (fun _ => (s.locations.map (fun l => l.country)).dedup)
    let (ok, query) := query.exec
    if !ok then []
    else query.rows.map (fun r => QVariant.toString r)
  | .State =>
    -- SELECT DISTINCT country, state from locations
    let query : QSqlQuery (Option String × Option String) :=
      QSqlQuery.prepare 0 (fun _ => (s.locations.map (fun l => (l.country, l.state))).dedup)
    let (ok, query) := query.exec
    if !ok then []
    else query.rows.map (fun r =>
      let country := QVariant.toString r.1
      let state := QVariant.toString r.2
      state ++ ", " ++ country)
  | .City =>
    -- SELECT DISTINCT country, state, city from locations
    let query : QSqlQuery (Option String × Option String × Option String) :=
      QSqlQuery.prepare 0
        (fun _ => (s.locations.map (fun l => (l.country, l.state, l.city))).dedup)
    let (ok, query) := query.exec
    if !ok then []
    else query.rows.map (fun r =>
      let country := QVariant.toString r.1
      let state := QVariant.toString r.2.1
      let city := QVariant.toString r.2.2
      if city ≠ "" then city ++ ", " ++ state ++ ", " ++ country
      else state ++ ", " ++ country)

/-- The rows of
`SELECT DISTINCT url from files, locations where country = ? AND files.location = locations.id`
for a text value bound to the placeholder. -/
def selectUrlByCountry (s : Store) (country : String) : List String :=
  ((s.files.filter (fun f =>
      s.locations.any (fun l => l.country = some country ∧ f.location = some l.id))).map
    (fun f => f.url)).dedup

def imagesForLocation (name : QString) (loc : LocationGroup) (s : Store) : List String :=
  match loc with
  | .Country =>
    let query : QSqlQuery String :=
      QSqlQuery.prepare 1 (fun b =>
        match b with
        | [some country] => selectUrlByCountry s country
        | _ => [])
    let query := query.addBindValue name
    let (ok, query) := query.exec
    if !ok then []
    else query.rows
  | _ => []

/-! ## Time groups -/

def timeGroups (group : TimeGroup) (s : Store) : List String :=
  match group with
  | .Year =>
    -- SELECT DISTINCT strftime('%Y', dateTime) from files
    let query : QSqlQuery (Option String) :=
      QSqlQuery.prepare 0 (fun _ => (s.files.map (fun f => strftime .Y f.dateTime)).dedup)
    let (ok, query) := query.exec
    if !ok then []
    else query.rows.map (fun r => QVariant.toString r)
  | .Month =>
    -- SELECT DISTINCT strftime('%Y', dateTime), strftime('%m', dateTime) from files
    let query : QSqlQuery (Option String × Option String) :=
      QSqlQuery.prepare 0
        (fun _ => (s.files.map (fun f => (strftime .Y f.dateTime, strftime .m f.dateTime))).dedup)
    let (ok, query) := query.exec
    if !ok then []
    else query.rows.map (fun r =>
      let year := QVariant.toString r.1
      let month := QVariant.toInt r.2
      longMonthName month ++ ", " ++ year)
  | .Week =>
    -- SELECT DISTINCT strftime('%Y', dateTime), strftime('%m', dateTime),
    --                 strftime('%W', dateTime) from files
    let query : QSqlQuery (Option String × Option String × Option String) :=
      QSqlQuery.prepare 0
        (fun _ => (s.files.map (fun f =>
          (strftime .Y f.dateTime, strftime .m f.dateTime, strftime .W f.dateTime))).dedup)
    let (ok, query) := query.exec
    if !ok then []
    else query.rows.map (fun r =>
      let year := QVariant.toString r.1
      let month := QVariant.toInt r.2.1
      let week := QVariant.toInt r.2.1
      "Week " ++ QString.number week ++ ", " ++ longMonthName month ++ ", " ++ year)
  | .Day =>
    -- SELECT DISTINCT date(dateTime) from files
    let query : QSqlQuery (Option String) :=
      QSqlQuery.prepare 0 (fun _ => (s.files.map (fun f => date f.dateTime)).dedup)
    let (ok, query) := query.exec
    if !ok then []
    else query.rows.map (fun r =>
      let date := QVariant.toDate r
      QDate.toString date)

def imagesForTime (name : QString) (group : TimeGroup) (s : Store) : List String :=
  match group with
  | .Year =>
    -- SELECT DISTINCT url from files where strftime('%Y', dateTime) = ?
    let query : QSqlQuery String :=
      QSqlQuery.prepare 1 (fun b =>
        match b with
        | [some year] =>
          ((s.files.filter (fun f => strftime .Y f.dateTime = some year)).map
            (fun f => f.url)).dedup
        | _ => [])
    let query := query.addBindValue name
    let (ok, query) := query.exec
    if !ok then []
    else query.rows
  | .Month =>
    -- SELECT DISTINCT url from files
    --   where strftime('%Y', dateTime) = ? AND strftime('%m', dateTime) = ?
    let query : QSqlQuery String :=
      QSqlQuery.prepare 2 (fun b =>
        match b with
        | [some year, some month] =>
          ((s.files.filter (fun f =>
              strftime .Y f.dateTime = some year ∧ strftime .m f.dateTime = some month)).map
            (fun f => f.url)).dedup
        | _ => [])
    let query := query.addBindValue name
    let (ok, query) := query.exec
    if !ok then []
    else query.rows
  | .Week => []
  | .Day => []

/-! ## Folders -/

/-- Path of `url.adjusted(QUrl::RemoveFilename)`: everything up to and including
the last slash. -/
def removeFilename (path : List Char) : List Char :=
  (path.reverse.dropWhile (fun c => c ≠ '/')).reverse

/-- Effect of `QUrl::StripTrailingSlash` on a path. -/
def stripTrailingSlash (path : List Char) : List Char :=
  if 1 < path.length ∧ path.getLast? = some '/' then path.dropLast else path

/-- The call `url.fileName()`: everything after the last slash of the path. -/
def fileName (path : List Char) : List Char :=
  (path.reverse.takeWhile (fun c => c ≠ '/')).reverse

/-- Body of the loop of `folders`: the name of the directory that holds the file. -/
def folderOf (url : String) : String :=
  String.mk (fileName (stripTrailingSlash (removeFilename url.data)))

def folders (s : Store) : List String :=
  -- the statement is prepared and never executed
  let query : QSqlQuery String := QSqlQuery.prepare 0 (fun _ => s.files.map (fun f => f.url))
  query.rows.map folderOf

def imagesForFolders (_folder : String) (_s : Store) : List String := []

/-- The reference `addImage` stores for an address: the converted last-insert id
after the location insert, or `NULL` for an empty country. -/
def locationRef (s : Store) (a : QGeoAddress) : Option Int :=
  if !QString.isEmpty a.country then
    some (lastInsertId (insertOrIgnoreLocation s a.country a.state a.city))
  else none

def exA : ImageInfo :=
  ⟨"/p/a.jpg", ⟨"France", "IDF", "Paris"⟩, ⟨2021, 3, 1, 12, 0, 0, .LocalTime⟩⟩

/-- The path of `exA` again, with another address and timestamp. -/
def exA2 : ImageInfo :=
  ⟨"/p/a.jpg", ⟨"Germany", "BE", "Berlin"⟩, ⟨2022, 5, 2, 8, 30, 0, .LocalTime⟩⟩

/-- Same address and month as `exA`, one week later. -/
def exB : ImageInfo :=
  ⟨"/p/b.jpg", ⟨"France", "IDF", "Paris"⟩, ⟨2021, 3, 8, 12, 0, 0, .LocalTime⟩⟩

/-- A file without location and without capture timestamp. -/
def exC : ImageInfo := ⟨"/p/c.jpg", ⟨none, none, none⟩, QDateTime.null⟩

/-- A file without location, with a timestamp. -/
def exPre : ImageInfo := ⟨"/p/c.jpg", ⟨"", "", ""⟩, ⟨2021, 1, 1, 9, 0, 0, .LocalTime⟩⟩

def exPic : ImageInfo :=
  ⟨"/home/u/Pictures/a.jpg", ⟨"France", "IDF", "Paris"⟩, ⟨2021, 3, 1, 12, 0, 0, .LocalTime⟩⟩

/-- A call with a null path and an address. -/
def exNullPath : ImageInfo :=
  ⟨none, ⟨"Spain", "MD", "Madrid"⟩, ⟨2021, 3, 1, 12, 0, 0, .LocalTime⟩⟩

/-- A second call with a null path, with another address and timestamp. -/
def exNullPath2 : ImageInfo :=
  ⟨none, ⟨"Germany", "BE", "Berlin"⟩, ⟨2022, 5, 2, 8, 30, 0, .LocalTime⟩⟩

theorem locations_state_eq (s : Store) :
    locations .State s =
      ((s.locations.map (fun l => (l.country, l.state))).dedup).map
        (fun r => QVariant.toString r.2 ++ ", " ++ QVariant.toString r.1) := by
  simp [locations, QSqlQuery.prepare, QSqlQuery.exec, QSqlQuery.rows]

theorem locations_city_eq (s : Store) :
    locations .City s =
      ((s.locations.map (fun l => (l.country, l.state, l.city))).dedup).map
        (fun r => if QVariant.toString r.2.2 ≠ ""
          then QVariant.toString r.2.2 ++ ", " ++ QVariant.toString r.2.1 ++ ", "
            ++ QVariant.toString r.1
          else QVariant.toString r.2.1 ++ ", " ++ QVariant.toString r.1) := by
  simp [locations, QSqlQuery.prepare, QSqlQuery.exec, QSqlQuery.rows]

theorem timeGroups_year_eq (s : Store) :
    timeGroups .Year s =
      ((s.files.map (fun f => strftime .Y f.dateTime)).dedup).map QVariant.toString := by
  simp [timeGroups, QSqlQuery.prepare, QSqlQuery.exec, QSqlQuery.rows]

theorem imagesForTime_year_eq (name : String) (s : Store) :
    imagesForTime (some name) .Year s =
      ((s.files.filter (fun f => strftime .Y f.dateTime = some name)).map
        (fun f => f.url)).dedup := by
  simp [imagesForTime, QSqlQuery.prepare, QSqlQuery.exec, QSqlQuery.rows,
    QSqlQuery.addBindValue]

/-- A null argument is bound as `NULL`, which equals no year. -/
theorem imagesForTime_null (g : TimeGroup) (s : Store) : imagesForTime none g s = [] := by
  cases g <;>
    simp [imagesForTime, QSqlQuery.prepare, QSqlQuery.exec, QSqlQuery.rows,
      QSqlQuery.addBindValue]

theorem mem_imagesForTime_year (s : Store) (L p : String) :
    p ∈ imagesForTime (some L) .Year s ↔
      ∃ f ∈ s.files, f.url = p ∧ strftime .Y f.dateTime = some L := by
  rw [imagesForTime_year_eq]
  simp only [List.mem_dedup, List.mem_map, List.mem_filter, decide_eq_true_eq]
  constructor
  · rintro ⟨f, ⟨hf, hy⟩, rfl⟩
    exact ⟨f, hf, rfl, hy⟩
  · rintro ⟨f, hf, rfl, hy⟩
    exact ⟨f, ⟨hf, hy⟩, rfl⟩

/-- One bound value for two placeholders: `exec()` fails and the month lookup
returns the empty list. -/
theorem imagesForTime_month_eq_nil (name : QString) (s : Store) :
    imagesForTime name .Month s = [] := by
  simp [imagesForTime, QSqlQuery.prepare, QSqlQuery.exec, QSqlQuery.addBindValue]

/-- A prepared statement that is never executed hands out no row. -/
theorem folders_eq_nil (s : Store) : folders s = [] := by
  simp [folders, QSqlQuery.prepare, QSqlQuery.rows]

/-! ## Timestamps: what is written is what SQLite reads -/

theorem digitVal_digitChar (n : Nat) : digitVal (digitChar n) = some (n % 10) := by
  have h : n % 10 < 10 := Nat.mod_lt _ (by decide)
  unfold digitChar
  generalize n % 10 = k at h
  interval_cases k <;> rfl

theorem skipSeparators_digitChar (n : Nat) (rest : List Char) :
    skipSeparators (digitChar n :: rest) = digitChar n :: rest := by
  have h : n % 10 < 10 := Nat.mod_lt _ (by decide)
  unfold digitChar
  generalize n % 10 = k at h
  interval_cases k <;> rfl

theorem num2_pad (n : Nat) (h : n < 100) :
    num2 (digitChar (n / 10)) (digitChar n) = some n := by
  simp only [num2, digitVal_digitChar]
  congr 1
  omega

theorem num4_pad (n : Nat) (h : n < 10000) :
    num4 (digitChar (n / 1000)) (digitChar (n / 100)) (digitChar (n / 10)) (digitChar n)
      = some n := by
  simp only [num4, num2, digitVal_digitChar]
  congr 1
  omega

theorem daysInMonth_le (y m : Nat) : daysInMonth y m ≤ 31 := by
  unfold daysInMonth
  split <;> try omega
  split <;> omega

/-- SQLite reads back the date of every local or UTC timestamp `addImage` writes. -/
theorem parseTimeValue_toString (d : QDateTime) (hv : d.isValid = true) (hy : d.year ≤ 9999)
    (hs : d.spec = .LocalTime ∨ d.spec = .UTC) :
    parseTimeValue d.toString = some ⟨d.year, d.month, d.day⟩ := by
  have hv2 := hv
  simp only [QDateTime.isValid, Bool.and_eq_true, decide_eq_true_eq] at hv2
  obtain ⟨⟨⟨⟨⟨⟨⟨h1, h2⟩, h3⟩, h4⟩, h5⟩, h6⟩, h7⟩, h8⟩ := hv2
  have hd := daysInMonth_le d.year d.month
  have e : d.toString = some (String.mk (pad4 d.year ++ '-' :: pad2 d.month ++ '-' ::
      pad2 d.day ++ 'T' :: pad2 d.hour ++ ':' :: pad2 d.minute ++ ':' :: pad2 d.second ++
      offsetSuffix d.spec)) := by
    simp [QDateTime.toString, hv, hy]
  rw [e]
  have hshift : ((((60 * d.hour + d.minute : Nat) : Int)) - 0) / 1440 = 0 := by omega
  have hnorm : normalizeDate d.year d.month d.day (60 * d.hour + d.minute) 0 =
      some ⟨d.year, d.month, d.day⟩ := by
    unfold normalizeDate
    simp only [hshift, h5, and_self, if_true]
  have htz : parseTimezone (offsetSuffix d.spec) = some 0 := by
    rcases hs with hs | hs <;> rw [hs] <;> rfl
  have hfrac : (match offsetSuffix d.spec with
      | '.' :: c :: ds => if (digitVal c).isSome then skipDigits ds else offsetSuffix d.spec
      | _ => offsetSuffix d.spec) = offsetSuffix d.spec := by
    rcases hs with hs | hs <;> rw [hs] <;> rfl
  simp only [parseTimeValue, pad4, pad2, List.cons_append, List.nil_append, List.append_nil,
    List.append_assoc]
  rw [num4_pad d.year (by omega), num2_pad d.month (by omega), num2_pad d.day (by omega)]
  have hrange : 1 ≤ d.month ∧ d.month ≤ 12 ∧ 1 ≤ d.day ∧ d.day ≤ 31 := ⟨h2, h3, h4, by omega⟩
  simp only [hrange, and_self, if_true]
  have hsep : skipSeparators ('T' :: digitChar (d.hour / 10) :: digitChar d.hour :: ':' ::
      digitChar (d.minute / 10) :: digitChar d.minute :: ':' :: digitChar (d.second / 10) ::
      digitChar d.second :: offsetSuffix d.spec) =
      digitChar (d.hour / 10) :: digitChar d.hour :: ':' ::
      digitChar (d.minute / 10) :: digitChar d.minute :: ':' :: digitChar (d.second / 10) ::
      digitChar d.second :: offsetSuffix d.spec := by
    rw [skipSeparators]
    simp only [isSpace, Bool.or_eq_true, decide_eq_true_eq, or_true, if_true]
    exact skipSeparators_digitChar _ _
  rw [hsep]
  simp only [parseHhMmSs]
  rw [num2_pad d.hour (by omega), num2_pad d.minute (by omega), num2_pad d.second (by omega)]
  have hhm : d.hour ≤ 23 ∧ d.minute ≤ 59 := ⟨by omega, by omega⟩
  have hsec : d.second ≤ 59 := by omega
  simp only [hhm, hsec, and_self, if_true, hfrac, htz, Option.map_some', hnorm]

theorem strftime_Y_toString (d : QDateTime) (hv : d.isValid = true) (hy : d.year ≤ 9999)
    (hs : d.spec = .LocalTime ∨ d.spec = .UTC) :
    strftime .Y d.toString = some (String.mk (pad4 d.year)) := by
  simp [strftime, parseTimeValue_toString d hv hy hs]

/-- An absent timestamp is stored as `NULL`, which is no time value. -/
theorem strftime_toString_invalid (c : Conv) (d : QDateTime) (hv : d.isValid = false) :
    strftime c d.toString = none := by
  have e : d.toString = none := by simp [QDateTime.toString, hv]
  rw [e]
  rfl

/-- The year column is never the empty text. -/
theorem strftime_Y_ne_empty (v : Option String) : strftime .Y v ≠ some "" := by
  unfold strftime
  cases parseTimeValue v with
  | none => simp
  | some dt =>
    intro h
    have := congrArg String.data (Option.some.inj h)
    simp [pad4] at this

/-! ## The two inserts -/

theorem run_append (infos : List ImageInfo) (ii : ImageInfo) :
    run (infos ++ [ii]) = addImage (run infos) ii := by
  simp [run, List.foldl_append]

/-- A null url violates `NOT NULL`: nothing is stored. -/
theorem insertFile_null (s : Store) (loc : Option Int) (dt : QString) :
    insertFile s none loc dt = s := rfl

theorem insertFile_fresh (s : Store) (url : String) (loc : Option Int) (dt : QString)
    (h : ∀ f ∈ s.files, f.url ≠ url) :
    insertFile s (some url) loc dt =
      { s with files := s.files ++ [⟨nextRowid (s.files.map (·.rowid)), url, loc, dt⟩],
               lastInsertRowid := nextRowid (s.files.map (·.rowid)) } := by
  unfold insertFile
  simp only
  rw [if_neg]
  simp only [List.any_eq_true, decide_eq_true_eq, not_exists, not_and]
  exact fun f hf => h f hf

theorem insertFile_stored (s : Store) (url : String) (loc : Option Int) (dt : QString)
    (h : ∃ f ∈ s.files, f.url = url) : insertFile s (some url) loc dt = s := by
  unfold insertFile
  simp only
  rw [if_pos]
  simpa using h

theorem insertFile_has_url (s : Store) (url : String) (loc : Option Int) (dt : QString) :
    ∃ f ∈ (insertFile s (some url) loc dt).files, f.url = url ∧
      (f ∈ s.files ∨ (f.location = loc ∧ f.dateTime = dt)) := by
  by_cases h : ∃ f ∈ s.files, f.url = url
  · rw [insertFile_stored _ _ _ _ h]
    obtain ⟨f, hf, hu⟩ := h
    exact ⟨f, hf, hu, Or.inl hf⟩
  · rw [insertFile_fresh _ _ _ _ (by simpa using h)]
    exact ⟨⟨nextRowid (s.files.map (·.rowid)), url, loc, dt⟩, by simp, rfl, Or.inr ⟨rfl, rfl⟩⟩

theorem insertFile_urls_nodup (s : Store) (url : QString) (loc : Option Int) (dt : QString)
    (h : (s.files.map (fun f => f.url)).Nodup) :
    ((insertFile s url loc dt).files.map (fun f => f.url)).Nodup := by
  unfold insertFile
  split
  · exact h
  · split
    · exact h
    · rename_i u hno
      simp only [List.any_eq_true, decide_eq_true_eq, not_exists, not_and] at hno
      simp only [List.map_append, List.map_cons, List.map_nil]
      rw [List.nodup_append]
      refine ⟨h, by simp, ?_⟩
      intro a ha hb
      simp only [List.mem_singleton] at hb
      simp only [List.mem_map] at ha
      obtain ⟨f, hf, rfl⟩ := ha
      exact hno f hf hb

theorem insertOrIgnoreLocation_files (s : Store) (c st ci : QString) :
    (insertOrIgnoreLocation s c st ci).files = s.files := by
  unfold insertOrIgnoreLocation
  split <;> rfl

theorem addImage_empty_country (s : Store) (ii : ImageInfo)
    (hc : QString.isEmpty ii.location.country = true) :
    addImage s ii = insertFile s ii.path none ii.date.toString := by
  simp [addImage, hc]

theorem addImage_country (s : Store) (ii : ImageInfo)
    (hc : QString.isEmpty ii.location.country = false) :
    addImage s ii =
      insertFile (insertOrIgnoreLocation s ii.location.country ii.location.state
        ii.location.city) ii.path
        (some (lastInsertId (insertOrIgnoreLocation s ii.location.country ii.location.state
          ii.location.city))) ii.date.toString := by
  simp [addImage, hc]

theorem addImage_has_url (s : Store) (p : String) (a : QGeoAddress) (d : QDateTime) :
    ∃ f ∈ (addImage s ⟨some p, a, d⟩).files, f.url = p ∧
      (f ∈ s.files ∨ (f.location = locationRef s a ∧ f.dateTime = d.toString)) := by
  cases hc : QString.isEmpty a.country with
  | true =>
    rw [addImage_empty_country s _ hc]
    simp only [locationRef, hc, Bool.not_true, Bool.false_eq_true, if_false]
    exact insertFile_has_url s p none d.toString
  | false =>
    rw [addImage_country s _ hc]
    simp only [locationRef, hc, Bool.not_false, if_true]
    obtain ⟨f, hf, hu, h⟩ := insertFile_has_url
      (insertOrIgnoreLocation s a.country a.state a.city)
      p (some (lastInsertId (insertOrIgnoreLocation s a.country a.state a.city))) d.toString
    rw [insertOrIgnoreLocation_files] at h
    exact ⟨f, hf, hu, h⟩

/-- A second insert of a stored url is rejected: the table keeps its rows. -/
theorem addImage_files_stored (s : Store) (p : String) (a : QGeoAddress) (d : QDateTime)
    (h : ∃ f ∈ s.files, f.url = p) : (addImage s ⟨some p, a, d⟩).files = s.files := by
  cases hc : QString.isEmpty a.country with
  | true =>
    rw [addImage_empty_country s _ hc, insertFile_stored _ _ _ _ h]
  | false =>
    rw [addImage_country s _ hc, insertFile_stored, insertOrIgnoreLocation_files]
    rw [insertOrIgnoreLocation_files]
    exact h

/-- A call with a null path stores no file row. -/
theorem addImage_files_null (s : Store) (a : QGeoAddress) (d : QDateTime) :
    (addImage s ⟨none, a, d⟩).files = s.files := by
  cases hc : QString.isEmpty a.country with
  | true => rw [addImage_empty_country s _ hc, insertFile_null]
  | false => rw [addImage_country s _ hc, insertFile_null, insertOrIgnoreLocation_files]

theorem addImage_urls_nodup (s : Store) (ii : ImageInfo)
    (h : (s.files.map (fun f => f.url)).Nodup) :
    ((addImage s ii).files.map (fun f => f.url)).Nodup := by
  cases hc : QString.isEmpty ii.location.country with
  | true =>
    rw [addImage_empty_country s ii hc]
    exact insertFile_urls_nodup _ _ _ _ h
  | false =>
    rw [addImage_country s ii hc]
    apply insertFile_urls_nodup
    rw [insertOrIgnoreLocation_files]
    exact h

/-- The primary key of `files`: no two rows of a reachable store share a url. -/
theorem run_urls_nodup (infos : List ImageInfo) :
    ((run infos).files.map (fun f => f.url)).Nodup := by
  induction infos using List.reverseRecOn with
  | nil => simp [run, emptyStore]
  | append_singleton infos ii ih =>
    rw [run_append]
    exact addImage_urls_nodup _ _ ih

theorem filter_url_eq_singleton (files : List FileRow) (r : FileRow)
    (hnd : (files.map (fun f => f.url)).Nodup) (hr : r ∈ files) :
    files.filter (fun f => f.url = r.url) = [r] := by
  induction files with
  | nil => simp at hr
  | cons x xs ih =>
    simp only [List.map_cons, List.nodup_cons, List.mem_map, not_exists, not_and] at hnd
    obtain ⟨hx, hxs⟩ := hnd
    simp only [List.mem_cons] at hr
    rcases hr with rfl | hr
    · rw [List.filter_cons_of_pos (by simp)]
      congr 1
      rw [List.filter_eq_nil_iff]
      intro a ha
      simpa using hx a ha
    · have hne : x.url ≠ r.url := fun h => hx r hr h.symm
      rw [List.filter_cons_of_neg (by simpa using hne)]
      exact ih hxs hr

/-- C2, counterexample: after `addImage` of `/p/a.jpg` with (France, 2021-03-01) and
then with (Germany, 2022-05-02) the one row of that path still carries the location
reference and the `dateTime` of the first call, not those of the second; and after
two calls with a null path the `files` table holds no row at all. -/
theorem dedup_counterexample :
    ((run [exA, exA2]).files.filter (fun f => f.url = "/p/a.jpg")).map
        (fun f => (f.location, f.dateTime)) = [(some 1, some "2021-03-01T12:00:00")] ∧
      exA2.date.toString = some "2022-05-02T08:30:00" ∧
      locationRef (run [exA]) exA2.location = some 2 ∧
      (run [exNullPath, exNullPath2]).files = [] := by
  decide

/-- C2, amended: in every reachable store, two `addImage` calls for the same
non-null path leave exactly one row for the path; the second call does not change
the `files` table, and the row is the one stored before the two calls or, for a path
not stored before, the row written by the first call (its location reference and
`dateTime`).  Two calls with a null path leave the `files` table as it was. -/
theorem addImage_same_path_twice (infos : List ImageInfo) (p : String) (a1 a2 : QGeoAddress)
    (d1 d2 : QDateTime) :
    (addImage (addImage (run infos) ⟨some p, a1, d1⟩) ⟨some p, a2, d2⟩).files =
        (addImage (run infos) ⟨some p, a1, d1⟩).files ∧
    (∃ r, (addImage (addImage (run infos) ⟨some p, a1, d1⟩) ⟨some p, a2, d2⟩).files.filter
          (fun f => f.url = p) = [r] ∧
      (r ∈ (run infos).files ∨
        (r.location = locationRef (run infos) a1 ∧ r.dateTime = d1.toString))) ∧
    (addImage (addImage (run infos) ⟨none, a1, d1⟩) ⟨none, a2, d2⟩).files =
        (run infos).files := by
  obtain ⟨r, hr, hu, hcase⟩ := addImage_has_url (run infos) p a1 d1
  have hfiles : (addImage (addImage (run infos) ⟨some p, a1, d1⟩) ⟨some p, a2, d2⟩).files =
      (addImage (run infos) ⟨some p, a1, d1⟩).files :=
    addImage_files_stored _ _ _ _ ⟨r, hr, hu⟩
  refine ⟨hfiles, ⟨r, ?_, hcase⟩, ?_⟩
  · rw [hfiles]
    have hnd := addImage_urls_nodup (run infos) ⟨some p, a1, d1⟩ (run_urls_nodup infos)
    have := filter_url_eq_singleton _ r hnd hr
    rw [hu] at this
    exact this
  · rw [addImage_files_null, addImage_files_null]

/-- C3, failing input: on a store that already holds one file, two files added with
the triple (France, IDF, Paris) leave one location row, with id 1, but the second
file row stores 2, the rowid of the file inserted just before, as its location. -/
theorem location_idempotence_failing_input :
    (run [exPre, exA, exB]).locations = [⟨1, "France", "IDF", "Paris"⟩] ∧
      (run [exPre, exA, exB]).files.map (fun f => (f.url, f.location)) =
        [("/p/c.jpg", none), ("/p/a.jpg", some 1), ("/p/b.jpg", some 2)] := by
  decide

/-- C6, counterexample: with one file in (France, IDF, Paris), `locations(State)`
returns "IDF, France" and `locations(City)` returns "Paris, IDF, France", and
`imagesForLocation` is empty for both. -/
theorem state_city_counterexample :
    "IDF, France" ∈ locations .State (run [exA]) ∧
      imagesForLocation "IDF, France" .State (run [exA]) = [] ∧
    "Paris, IDF, France" ∈ locations .City (run [exA]) ∧
      imagesForLocation "Paris, IDF, France" .City (run [exA]) = [] := by
  decide

/-- C6, amended: for every store, the labels of `locations(State)` are the strings
"State, Country" of the location rows and those of `locations(City)` are
"City, State, Country", or "State, Country" when the city is empty (a `NULL`
column reading as the empty string); and `imagesForLocation(L, G)` is the empty
list for every `L` and `G` in {State, City}. -/
theorem state_city_lookup (s : Store) (L : String) :
    (L ∈ locations .State s ↔ ∃ l ∈ s.locations,
      L = QVariant.toString l.state ++ ", " ++ QVariant.toString l.country) ∧
    (L ∈ locations .City s ↔ ∃ l ∈ s.locations,
      L = if QVariant.toString l.city ≠ ""
          then QVariant.toString l.city ++ ", " ++ QVariant.toString l.state ++ ", "
            ++ QVariant.toString l.country
          else QVariant.toString l.state ++ ", " ++ QVariant.toString l.country) ∧
    imagesForLocation L .State s = [] ∧ imagesForLocation L .City s = [] := by
  refine ⟨?_, ?_, rfl, rfl⟩
  · rw [locations_state_eq]
    simp only [List.mem_map, List.mem_dedup]
    constructor
    · rintro ⟨r, ⟨l, hl, rfl⟩, rfl⟩
      exact ⟨l, hl, rfl⟩
    · rintro ⟨l, hl, rfl⟩
      exact ⟨_, ⟨l, hl, rfl⟩, rfl⟩
  · rw [locations_city_eq]
    simp only [List.mem_map, List.mem_dedup]
    constructor
    · rintro ⟨r, ⟨l, hl, rfl⟩, rfl⟩
      exact ⟨l, hl, rfl⟩
    · rintro ⟨l, hl, rfl⟩
      exact ⟨_, ⟨l, hl, rfl⟩, rfl⟩

/-- C5, counterexample: with a file that has no capture timestamp,
`timeGroups(Year)` returns the empty label and `imagesForTime("", Year)` is empty. -/
theorem year_roundtrip_counterexample :
    "" ∈ timeGroups .Year (run [exC, exA]) ∧ imagesForTime "" .Year (run [exC, exA]) = [] := by
  decide

/-- C5, amended: for every store and every label `L` of `timeGroups(Year)`,
`imagesForTime(L, Year)` returns exactly the paths of the files whose `dateTime`
has the 4-digit year `L`, and it is non-empty exactly when `L` is not the empty
label (the label that files without a valid timestamp produce). -/
theorem year_roundtrip (s : Store) (L : String) (hL : L ∈ timeGroups .Year s) :
    (∀ p, p ∈ imagesForTime L .Year s ↔
        ∃ f ∈ s.files, f.url = p ∧ strftime .Y f.dateTime = some L) ∧
    (imagesForTime L .Year s ≠ [] ↔ L ≠ "") := by
  refine ⟨mem_imagesForTime_year s L, ?_, ?_⟩
  · intro hne hL0
    obtain ⟨p, hp⟩ := List.exists_mem_of_ne_nil _ hne
    obtain ⟨f, -, -, hy⟩ := (mem_imagesForTime_year s L p).1 hp
    rw [hL0] at hy
    exact strftime_Y_ne_empty _ hy
  · intro hne
    rw [timeGroups_year_eq] at hL
    simp only [List.mem_map, List.mem_dedup] at hL
    obtain ⟨v, ⟨f, hf, rfl⟩, hv⟩ := hL
    cases hy : strftime .Y f.dateTime with
    | none =>
      rw [hy] at hv
      exact absurd hv.symm hne
    | some y =>
      rw [hy] at hv
      have hyL : y = L := hv
      subst hyL
      exact List.ne_nil_of_mem ((mem_imagesForTime_year s y f.url).2 ⟨f, hf, rfl, hy⟩)

/-- C5, witness: the label "2021" of a store with a dated and an undated file. -/
theorem year_roundtrip_witness :
    "2021" ∈ timeGroups .Year (run [exC, exA]) ∧
    (∀ p, p ∈ imagesForTime "2021" .Year (run [exC, exA]) ↔
        ∃ f ∈ (run [exC, exA]).files, f.url = p ∧ strftime .Y f.dateTime = some "2021") ∧
    (imagesForTime "2021" .Year (run [exC, exA]) ≠ [] ↔ "2021" ≠ "") :=
  ⟨by decide, year_roundtrip (run [exC, exA]) "2021" (by decide)⟩

/-- C7, counterexample: with one file of 1 March 2021 each of `timeGroups(Month)`,
`timeGroups(Week)` and `timeGroups(Day)` returns a label, and `imagesForTime` is
empty for each of them. -/
theorem time_membership_counterexample :
    "March, 2021" ∈ timeGroups .Month (run [exA]) ∧
      imagesForTime "March, 2021" .Month (run [exA]) = [] ∧
    "Week 3, March, 2021" ∈ timeGroups .Week (run [exA]) ∧
      imagesForTime "Week 3, March, 2021" .Week (run [exA]) = [] ∧
    "Monday, March 1, 2021" ∈ timeGroups .Day (run [exA]) ∧
      imagesForTime "Monday, March 1, 2021" .Day (run [exA]) = [] := by
  decide

/-- C7, amended: for every store and every label `L`, `imagesForTime(L, Week)` and
`imagesForTime(L, Day)` are the empty list. -/
theorem week_day_lookup_empty (s : Store) (L : String) :
    imagesForTime L .Week s = [] ∧ imagesForTime L .Day s = [] :=
  ⟨rfl, rfl⟩

/-- C8, failing input: files of 1 March 2021 and 8 March 2021 lie in weeks 09 and 10
of the year (`strftime('%W')`), and `timeGroups(Week)` returns the label
"Week 3, March, 2021" for both: the week number shown is the month number. -/
theorem week_label_failing_input :
    strftime .W exA.date.toString = some "09" ∧ strftime .W exB.date.toString = some "10" ∧
      timeGroups .Week (run [exA, exB]) = ["Week 3, March, 2021", "Week 3, March, 2021"] := by
  decide

/-! ## Folders -/

/-- C10, failing input: with the file `/home/u/Pictures/a.jpg` stored, whose folder
name is "Pictures", `folders()` returns the empty list. -/
theorem folders_failing_input :
    (run [exPic]).files.map (fun f => f.url) = ["/home/u/Pictures/a.jpg"] ∧
      folderOf "/home/u/Pictures/a.jpg" = "Pictures" ∧ folders (run [exPic]) = [] := by
  decide

end ImageStorage
